import Mathlib

/-!
Verification of the ROI management and conflict-resolution engine described by
the repository's specification. The engine itself is a compiled service that the
repository's Python test suite drives over HTTP; its data model and operations
are therefore modelled here directly from the specification (each such
definition is marked `Modelled from the spec:`), and the stated properties are
proved against that model.
-/

namespace AISec

/-- Modelled from the spec: a polygon vertex / detection point with integer
coordinates, as exchanged by the API (`{"x": 100, "y": 100}`). -/
structure Point where
  x : Int
  y : Int
deriving DecidableEq, Repr

/-- Modelled from the spec (§3 DATA MODEL): an ROI record. `start_time` and
`end_time` use the wire encoding observed in the tests: a time-of-day string
`"HH:MM"` or `"HH:MM:SS"`, with the empty string as the "absent" sentinel. -/
structure ROI where
  id : String
  camera_id : String
  name : String
  polygon : List Point
  enabled : Bool
  priority : Int
  start_time : String
  end_time : String
deriving DecidableEq, Repr

/-- Value of a decimal digit character, `none` for a non-digit. -/
def digitVal (c : Char) : Option Nat :=
  if c.isDigit then some (c.toNat - 48) else none

/-- A two-character, two-digit numeric field of a time string; the tests pin
down that one-digit fields such as `"3"` in `"12:3"` are rejected. -/
def twoDigits : List Char → Option Nat
  | [c1, c2] =>
    match digitVal c1, digitVal c2 with
    | some d1, some d2 => some (10 * d1 + d2)
    | _, _ => none
  | _ => none

/-- Splits a character list at each colon. -/
def splitColon : List Char → List (List Char)
  | [] => [[]]
  | c :: cs =>
    if c = ':' then [] :: splitColon cs
    else
      match splitColon cs with
      | [] => [[c]]
      | g :: gs => (c :: g) :: gs

/-- Modelled from the spec (§3, §4.2): parser of the 24-hour time format
`HH:MM` or `HH:MM:SS` (`0 ≤ HH ≤ 23`, `0 ≤ MM ≤ 59`, `0 ≤ SS ≤ 59`) to
seconds since midnight; `none` on any malformed input. -/
def parseTimeOfDay (s : String) : Option Nat :=
  match splitColon s.data with
  | [hs, ms] =>
    match twoDigits hs, twoDigits ms with
    | some h, some m => if h ≤ 23 ∧ m ≤ 59 then some (3600 * h + 60 * m) else none
    | _, _ => none
  | [hs, ms, ss] =>
    match twoDigits hs, twoDigits ms, twoDigits ss with
    | some h, some m, some sec =>
      if h ≤ 23 ∧ m ≤ 59 ∧ sec ≤ 59 then some (3600 * h + 60 * m + sec) else none
    | _, _, _ => none
  | _ => none

/-- Modelled from the spec (§4.2 Time Window Evaluator): pure activity test.
Both fields absent means always active; with both parsed to seconds since
midnight, a window with `start ≤ end` is active iff `start ≤ now ≤ end`
(endpoints inclusive), and a window crossing midnight (`start > end`) is
active iff `now ≥ start ∨ now ≤ end`. A window with only one side present is
not constrained by the spec; it is treated as unrestricted (always active). -/
def isActive (startS endS : String) (now : Nat) : Bool :=
  match parseTimeOfDay startS, parseTimeOfDay endS with
  | some s, some e =>
    if s ≤ e then decide (s ≤ now) && decide (now ≤ e)
    else decide (s ≤ now) || decide (now ≤ e)
  | _, _ => true

/-- Modelled from the spec (§4.4): the width in seconds of the daily window,
used for the "narrower currently-active time window" tie-break; an
unrestricted window spans the full day. -/
def windowWidth (startS endS : String) : Nat :=
  match parseTimeOfDay startS, parseTimeOfDay endS with
  | some s, some e => if s ≤ e then e - s else 86400 - s + e
  | _, _ => 86400

/-- Point `p` lies on the closed segment from `a` to `b` (collinear and within
the bounding box). -/
def onSegment (a b p : Point) : Bool :=
  decide ((b.x - a.x) * (p.y - a.y) = (b.y - a.y) * (p.x - a.x)) &&
  decide (min a.x b.x ≤ p.x) && decide (p.x ≤ max a.x b.x) &&
  decide (min a.y b.y ≤ p.y) && decide (p.y ≤ max a.y b.y)

/-- One edge's contribution to the even-odd crossing count of a horizontal ray
from `p` towards increasing `x`, in the standard division-free integer form. -/
def edgeCrosses (a b p : Point) : Bool :=
  let t := (b.x - a.x) * (p.y - a.y) - (p.x - a.x) * (b.y - a.y)
  (decide (a.y ≤ p.y) && decide (p.y < b.y) && decide (0 < t)) ||
  (decide (b.y ≤ p.y) && decide (p.y < a.y) && decide (t < 0))

/-- Modelled from the spec (§4.3 Geometry Engine): standard ray-casting
(even-odd rule) containment over the ordered vertex sequence, with boundary
points treated as inside. -/
def containsPoint (poly : List Point) (p : Point) : Bool :=
  let edges := poly.zip (poly.drop 1 ++ poly.take 1)
  edges.any (fun e => onSegment e.1 e.2 p) ||
  (edges.countP (fun e => edgeCrosses e.1 e.2 p)) % 2 == 1

/-- Modelled from the spec (§7 error taxonomy). -/
inductive RoiError where
  | invalidPolygon (points : Nat)
  | invalidPriority (provided lo hi : Int)
  | invalidTimeFormat (value : String)
  | missingCameraId
  | duplicateId (id : String)
  | notFound (id : String)
deriving DecidableEq, Repr

/-- Modelled from the spec: a time field is valid when it is empty (absent) or
parseable; validity is per field, independent of the other field. -/
def validTimeField (s : String) : Bool :=
  s == "" || (parseTimeOfDay s).isSome

/-- Modelled from the spec (§4.1): record-level validation shared by `create`
and `update` — polygon of at least 3 points, priority in `[1,5]`, each time
field empty or parseable, camera id non-empty. -/
def validateRecord (r : ROI) : Option RoiError :=
  if r.polygon.length < 3 then some (.invalidPolygon r.polygon.length)
  else if r.priority < 1 ∨ 5 < r.priority then some (.invalidPriority r.priority 1 5)
  else if !validTimeField r.start_time then some (.invalidTimeFormat r.start_time)
  else if !validTimeField r.end_time then some (.invalidTimeFormat r.end_time)
  else if r.camera_id == "" then some RoiError.missingCameraId
  else none

/-- The store's backing collection, in insertion order. -/
abbrev Store := List ROI

/-- First record with the given id, if any. -/
def findRoi (store : Store) (id : String) : Option ROI :=
  store.find? (fun r => r.id == id)

/-- Response of the record-returning endpoints (`POST /rois`, `PUT /rois/...`). -/
structure CreateResponse where
  status : Nat
  stored : Option ROI
  error : Option RoiError
deriving DecidableEq, Repr

/-- Modelled from the spec (§4.1, §6): `POST /rois` — validate, reject a
duplicate id, otherwise append the record and answer `201`. -/
def createRoi (store : Store) (r : ROI) : CreateResponse × Store :=
  match validateRecord r with
  | some e => (⟨400, none, some e⟩, store)
  | none =>
    match findRoi store r.id with
    | some _ => (⟨400, none, some (RoiError.duplicateId r.id)⟩, store)
    | none => (⟨201, some r, none⟩, store ++ [r])

/-- Modelled from the spec (§4.1, §6): `PUT /rois/{id}` — `404` when the id is
absent, otherwise the same validation as `create`, then full replacement of
the record (the stored id stays the addressed one). -/
def updateRoi (store : Store) (id : String) (r : ROI) : CreateResponse × Store :=
  match findRoi store id with
  | none => (⟨404, none, some (RoiError.notFound id)⟩, store)
  | some _ =>
    match validateRecord r with
    | some e => (⟨400, none, some e⟩, store)
    | none =>
      let r' := { r with id := id }
      (⟨200, some r', none⟩, store.map (fun s => if s.id == id then r' else s))

/-- Response of `DELETE /rois/{id}`. -/
structure DeleteResponse where
  status : Nat
  roi_id : Option String
  camera_id : Option String
deriving DecidableEq, Repr

/-- Modelled from the spec (§6): `DELETE /rois/{id}` — `200` with the deleted
record's `roi_id` and `camera_id`, removing exactly the first record with that
id; `404` with the store untouched when the id is absent. -/
def deleteRoi : Store → String → DeleteResponse × Store
  | [], _ => (⟨404, none, none⟩, [])
  | r :: rs, id =>
    if r.id == id then (⟨200, some r.id, some r.camera_id⟩, rs)
    else
      let res := deleteRoi rs id
      (res.1, r :: res.2)

/-- Response of `GET /rois[?camera_id=...]`. -/
structure ListResponse where
  status : Nat
  rois : List ROI
  count : Nat
deriving DecidableEq, Repr

/-- Stable insertion for the priority-descending order: `r` goes in front of
the first record whose priority does not exceed its own, so records of equal
priority keep their original (insertion) order. -/
def insertByPriority (r : ROI) : List ROI → List ROI
  | [] => [r]
  | s :: ss =>
    if s.priority ≤ r.priority then r :: s :: ss else s :: insertByPriority r ss

/-- Modelled from the spec (§4.1 `list`): stable sort by priority descending,
ties broken by the records' insertion sequence. -/
def sortByPriorityDesc : List ROI → List ROI
  | [] => []
  | r :: rs => insertByPriority r (sortByPriorityDesc rs)

/-- Modelled from the spec (§4.1, §6): `GET /rois` with an optional
`camera_id` filter; the selected records are returned sorted by priority
descending together with their count. -/
def listRois (store : Store) (cam : Option String) : ListResponse :=
  let sel := match cam with
    | some c => store.filter (fun r => r.camera_id == c)
    | none => store
  let sorted := sortByPriorityDesc sel
  ⟨200, sorted, sorted.length⟩

/-- Modelled from the spec (§4.4 step 1): the candidate ROIs for a detection
event — matching camera, enabled, containing the point, active now. -/
def candidates (store : Store) (cam : String) (p : Point) (now : Nat) : List ROI :=
  store.filter (fun r =>
    r.camera_id == cam && r.enabled && containsPoint r.polygon p &&
    isActive r.start_time r.end_time now)

/-- The width of an ROI's daily activation window. -/
def roiWidth (r : ROI) : Nat := windowWidth r.start_time r.end_time

/-- Strict lexicographic order on character lists by character code. -/
def charListLt : List Char → List Char → Bool
  | [], [] => false
  | [], _ :: _ => true
  | _ :: _, [] => false
  | c :: cs, d :: ds =>
    if c.toNat < d.toNat then true
    else if d.toNat < c.toNat then false
    else charListLt cs ds

/-- Strict lexicographic order on strings, used for the ascending-id
tie-break. -/
def strLt (a b : String) : Bool := charListLt a.data b.data

/-- Modelled from the spec (§4.4 step 4): the strict "better" ordering used in
conflict resolution — higher priority first, then the narrower
currently-active window, then ascending id. -/
def betterRoi (a b : ROI) : Bool :=
  decide (b.priority < a.priority) ||
  (a.priority == b.priority &&
    (decide (roiWidth a < roiWidth b) ||
      (roiWidth a == roiWidth b && strLt a.id b.id)))

/-- The maximal element of a candidate list under `betterRoi`. -/
def pickBest : List ROI → Option ROI
  | [] => none
  | r :: rs =>
    match pickBest rs with
    | none => some r
    | some w => if betterRoi r w then some r else some w

/-- Modelled from the spec (§4.4): state-free single-winner conflict
resolution for a detection event `(camera_id, point, timestamp)`. -/
def resolveConflict (store : Store) (cam : String) (p : Point) (now : Nat) : Option ROI :=
  pickBest (candidates store cam p now)

/-- Modelled from the spec (§4.6 Visualization Annotator): the currently-active
set drawn on a camera's frames — enabled records whose window is active. -/
def overlayActiveSet (store : Store) (cam : String) (now : Nat) : List ROI :=
  store.filter (fun r =>
    r.camera_id == cam && r.enabled && isActive r.start_time r.end_time now)

/-- Modelled from the spec (§4.5): one operation of a bulk batch. -/
inductive BulkOp where
  | create (r : ROI)
  | update (id : String) (r : ROI)
  | delete (id : String)
deriving DecidableEq, Repr

/-- Modelled from the spec (§4.5): validation of a single bulk operation
against the rules of §4.1, relative to the pre-batch store. -/
def validateOp (store : Store) : BulkOp → Option RoiError
  | .create r =>
    match validateRecord r with
    | some e => some e
    | none =>
      match findRoi store r.id with
      | some _ => some (RoiError.duplicateId r.id)
      | none => none
  | .update id r =>
    match findRoi store id with
    | none => some (RoiError.notFound id)
    | some _ => validateRecord r
  | .delete id =>
    match findRoi store id with
    | none => some (RoiError.notFound id)
    | some _ => none

/-- Modelled from the spec (§4.5): every validation failure of the batch,
each with the index of its failing operation, indices counted from `i`. -/
def bulkErrorsFrom (store : Store) (i : Nat) : List BulkOp → List (Nat × RoiError)
  | [] => []
  | op :: ops =>
    match validateOp store op with
    | some e => (i, e) :: bulkErrorsFrom store (i + 1) ops
    | none => bulkErrorsFrom store (i + 1) ops

/-- Applies one already-validated bulk operation to the store. -/
def applyOp (store : Store) : BulkOp → Store
  | .create r => store ++ [r]
  | .update id r => store.map (fun s => if s.id == id then { r with id := id } else s)
  | .delete id => (deleteRoi store id).2

/-- Whether a bulk operation is a create. -/
def isCreateOp : BulkOp → Bool
  | .create _ => true
  | _ => false

/-- Whether a bulk operation is an update. -/
def isUpdateOp : BulkOp → Bool
  | .update _ _ => true
  | _ => false

/-- Whether a bulk operation is a delete. -/
def isDeleteOp : BulkOp → Bool
  | .delete _ => true
  | _ => false

/-- Response of `POST /rois/bulk`. -/
structure BulkResponse where
  status : Nat
  created : Nat
  updated : Nat
  deleted : Nat
  operations_executed : Nat
  total_errors : Nat
  validation_errors : List (Nat × RoiError)
deriving DecidableEq, Repr

/-- Modelled from the spec (§4.5, §6): `POST /rois/bulk` — validate every
operation before mutating anything; on any failure answer `400` with the
aggregated, indexed error list and leave the store untouched; otherwise apply
the operations in the given order and answer `200` with the counts of
created/updated/deleted operations and the total executed. -/
def bulkRois (store : Store) (ops : List BulkOp) : BulkResponse × Store :=
  let errs := bulkErrorsFrom store 0 ops
  if errs.isEmpty then
    (⟨200, ops.countP isCreateOp, ops.countP isUpdateOp, ops.countP isDeleteOp,
      ops.length, 0, []⟩, ops.foldl applyOp store)
  else
    (⟨400, 0, 0, 0, 0, errs.length, errs⟩, store)

/-- An axis-aligned rectangle polygon, the shape used throughout the test
fixtures. -/
def rectPoly (x0 y0 x1 y1 : Int) : List Point :=
  [⟨x0, y0⟩, ⟨x1, y0⟩, ⟨x1, y1⟩, ⟨x0, y1⟩]

/-- Fixture: a valid, always-active ROI. -/
def roiA : ROI := ⟨"roi_A", "cam1", "Zone A", rectPoly 0 0 100 100, true, 2, "", ""⟩

/-- Fixture: a valid business-hours ROI. -/
def roiB : ROI := ⟨"roi_B", "cam1", "Zone B", rectPoly 50 50 150 150, true, 3, "09:00", "17:00"⟩

/-- Fixture: the replacement record submitted for `roi_B` in the mixed batch. -/
def roiB2 : ROI := ⟨"roi_B", "cam1", "Zone B v2", rectPoly 60 60 160 160, true, 4, "08:00", "18:00"⟩

/-- Fixture: a valid ROI that the mixed batch deletes. -/
def roiC : ROI := ⟨"roi_C", "cam1", "Zone C", rectPoly 200 200 300 300, true, 1, "", ""⟩

/-- Fixture: a high-priority, always-active ROI overlapping `roiB`. -/
def roiHigh : ROI := ⟨"roi_H", "cam1", "Zone H", rectPoly 0 0 100 100, true, 5, "", ""⟩

/-- Fixture: a disabled ROI of maximal priority. -/
def roiDisabled : ROI := ⟨"roi_off", "cam1", "Zone off", rectPoly 0 0 100 100, false, 5, "", ""⟩

/-- Fixture: an otherwise valid record parametrised by its priority. -/
def roiWithPriority (p : Int) : ROI :=
  ⟨"roi_p", "cam1", "Zone P", rectPoly 0 0 10 10, true, p, "", ""⟩

/-- Fixture: a record whose start time is the empty string only. -/
def roiEmptyStart : ROI := ⟨"roi_es", "cam1", "Zone ES", rectPoly 0 0 10 10, true, 3, "", "17:00"⟩

/-- Fixture: a record whose end time is the empty string only. -/
def roiEmptyEnd : ROI := ⟨"roi_ee", "cam1", "Zone EE", rectPoly 0 0 10 10, true, 3, "09:00", ""⟩

/-- Fixture: the store holding `roiB` and `roiC` before the mixed batch. -/
def storeBC : Store := [roiB, roiC]

/-- Fixture: the mixed batch — create `roiA`, update `roi_B` to `roiB2`,
delete `roi_C`. -/
def opsMixed : List BulkOp := [.create roiA, .update "roi_B" roiB2, .delete "roi_C"]

/-- Fixture: a batch whose second operation carries an out-of-range priority. -/
def opsInvalid : List BulkOp := [.create roiA, .create (roiWithPriority 10)]

/-- Fixture: the store used by the conflict-resolution witness. -/
def stC4 : Store := [roiB, roiHigh]

lemma insertByPriority_perm (r : ROI) (l : List ROI) :
    (insertByPriority r l).Perm (r :: l) := by
  induction l with
  | nil => simp [insertByPriority]
  | cons s ss ih =>
    by_cases h : s.priority ≤ r.priority
    · simp [insertByPriority, h]
    · simp only [insertByPriority, if_neg h]
      exact (List.Perm.cons s ih).trans (List.Perm.swap r s ss)

lemma sortByPriorityDesc_perm (l : List ROI) : (sortByPriorityDesc l).Perm l := by
  induction l with
  | nil => simp [sortByPriorityDesc]
  | cons r rs ih =>
    exact (insertByPriority_perm r (sortByPriorityDesc rs)).trans (List.Perm.cons r ih)

lemma pairwise_insertByPriority {r : ROI} {l : List ROI}
    (h : l.Pairwise (fun a b => b.priority ≤ a.priority)) :
    (insertByPriority r l).Pairwise (fun a b => b.priority ≤ a.priority) := by
  induction l with
  | nil => simp [insertByPriority]
  | cons s ss ih =>
    rw [List.pairwise_cons] at h
    by_cases hrs : s.priority ≤ r.priority
    · simp only [insertByPriority, if_pos hrs, List.pairwise_cons]
      refine ⟨?_, ?_⟩
      · intro x hx
        rcases List.mem_cons.mp hx with rfl | hx
        · exact hrs
        · exact le_trans (h.1 x hx) hrs
      · exact h
    · simp only [insertByPriority, if_neg hrs, List.pairwise_cons]
      refine ⟨?_, ih h.2⟩
      intro x hx
      have hx' := (insertByPriority_perm r ss).mem_iff.mp hx
      rcases List.mem_cons.mp hx' with rfl | hx''
      · omega
      · exact h.1 x hx''

lemma sortByPriorityDesc_pairwise (l : List ROI) :
    (sortByPriorityDesc l).Pairwise (fun a b => b.priority ≤ a.priority) := by
  induction l with
  | nil => simp [sortByPriorityDesc]
  | cons r rs ih => exact pairwise_insertByPriority ih

lemma filter_insertByPriority (r : ROI) (l : List ROI) (p : Int) :
    (insertByPriority r l).filter (fun s => s.priority == p) =
      (r :: l).filter (fun s => s.priority == p) := by
  induction l with
  | nil => rfl
  | cons s ss ih =>
    by_cases hrs : s.priority ≤ r.priority
    · simp [insertByPriority, hrs]
    · simp only [insertByPriority, if_neg hrs, List.filter_cons, ih]
      by_cases hr : (r.priority == p) = true
      · by_cases hs : (s.priority == p) = true
        · exfalso; rw [beq_iff_eq] at hr hs; omega
        · simp [hr, hs]
      · by_cases hs : (s.priority == p) = true
        · simp [hr, hs]
        · simp [hr, hs]

lemma filter_sortByPriorityDesc (l : List ROI) (p : Int) :
    (sortByPriorityDesc l).filter (fun s => s.priority == p) =
      l.filter (fun s => s.priority == p) := by
  induction l with
  | nil => rfl
  | cons r rs ih =>
    simp only [sortByPriorityDesc, filter_insertByPriority, List.filter_cons, ih]

lemma charListLt_irrefl (l : List Char) : charListLt l l = false := by
  induction l with
  | nil => rfl
  | cons c cs ih => simp [charListLt, ih]

lemma charListLt_cons_iff (x d : Char) (xs ds : List Char) :
    charListLt (x :: xs) (d :: ds) = true ↔
      (x.toNat < d.toNat ∨ (x.toNat = d.toNat ∧ charListLt xs ds = true)) := by
  simp only [charListLt]
  by_cases h1 : x.toNat < d.toNat
  · simp [h1]
  · by_cases h2 : d.toNat < x.toNat
    · simp only [if_neg h1, if_pos h2]
      constructor
      · intro h; exact absurd h (by simp)
      · intro h; exfalso; rcases h with h | ⟨h, _⟩ <;> omega
    · simp only [if_neg h1, if_neg h2]
      have hxd : x.toNat = d.toNat := by omega
      simp [hxd]

lemma charListLt_trans {a b c : List Char} (h1 : charListLt a b = true)
    (h2 : charListLt b c = true) : charListLt a c = true := by
  induction a generalizing b c with
  | nil =>
    cases b with
    | nil => simp [charListLt] at h1
    | cons d ds =>
      cases c with
      | nil => simp [charListLt] at h2
      | cons e es => simp [charListLt]
  | cons x xs ih =>
    cases b with
    | nil => simp [charListLt] at h1
    | cons d ds =>
      cases c with
      | nil => simp [charListLt] at h2
      | cons e es =>
        rw [charListLt_cons_iff] at h1 h2 ⊢
        rcases h1 with h1 | ⟨h1e, h1l⟩
        · rcases h2 with h2 | ⟨h2e, h2l⟩
          · left; omega
          · left; omega
        · rcases h2 with h2 | ⟨h2e, h2l⟩
          · left; omega
          · right; exact ⟨by omega, ih h1l h2l⟩

lemma strLt_trans {a b c : String} (h1 : strLt a b = true) (h2 : strLt b c = true) :
    strLt a c = true :=
  charListLt_trans h1 h2

lemma betterRoi_iff (a b : ROI) : betterRoi a b = true ↔
    (b.priority < a.priority ∨
      (a.priority = b.priority ∧
        (roiWidth a < roiWidth b ∨
          (roiWidth a = roiWidth b ∧ strLt a.id b.id = true)))) := by
  simp [betterRoi, Bool.or_eq_true, Bool.and_eq_true, decide_eq_true_iff, beq_iff_eq]

lemma betterRoi_trans {a b c : ROI} (h1 : betterRoi a b = true)
    (h2 : betterRoi b c = true) : betterRoi a c = true := by
  rw [betterRoi_iff] at h1 h2 ⊢
  rcases h1 with h1 | ⟨h1p, h1r⟩
  · rcases h2 with h2 | ⟨h2p, h2r⟩
    · left; omega
    · left; omega
  · rcases h2 with h2 | ⟨h2p, h2r⟩
    · left; omega
    · right
      refine ⟨by omega, ?_⟩
      rcases h1r with h1w | ⟨h1w, h1s⟩
      · rcases h2r with h2w | ⟨h2w, h2s⟩
        · left; omega
        · left; omega
      · rcases h2r with h2w | ⟨h2w, h2s⟩
        · left; omega
        · right; exact ⟨by omega, strLt_trans h1s h2s⟩

lemma betterRoi_irrefl (a : ROI) : betterRoi a a = false := by
  rw [Bool.eq_false_iff]
  intro h
  rw [betterRoi_iff] at h
  rcases h with h | ⟨_, h | ⟨_, h⟩⟩
  · omega
  · omega
  · simp only [strLt, charListLt_irrefl] at h
    cases h

lemma priority_le_of_not_better {c w : ROI} (h : betterRoi c w = false) :
    c.priority ≤ w.priority := by
  by_contra hlt
  have hb : betterRoi c w = true := (betterRoi_iff c w).mpr (Or.inl (by omega))
  rw [h] at hb
  cases hb

lemma pickBest_eq_none_iff (l : List ROI) : pickBest l = none ↔ l = [] := by
  cases l with
  | nil => simp [pickBest]
  | cons r rs =>
    constructor
    · intro h
      exfalso
      cases hrs : pickBest rs with
      | none =>
        simp only [pickBest, hrs] at h
        exact Option.noConfusion h
      | some w =>
        simp only [pickBest, hrs] at h
        by_cases hb : betterRoi r w = true
        · rw [if_pos hb] at h; cases h
        · rw [if_neg hb] at h; cases h
    · intro h
      exact absurd h (List.cons_ne_nil r rs)

lemma pickBest_mem {l : List ROI} {w : ROI} (h : pickBest l = some w) : w ∈ l := by
  induction l generalizing w with
  | nil => simp [pickBest] at h
  | cons r rs ih =>
    cases hrs : pickBest rs with
    | none =>
      simp only [pickBest, hrs] at h
      injection h with h
      subst h
      exact List.mem_cons_self r rs
    | some v =>
      simp only [pickBest, hrs] at h
      by_cases hb : betterRoi r v = true
      · rw [if_pos hb] at h
        injection h with h
        subst h
        exact List.mem_cons_self r rs
      · rw [if_neg hb] at h
        injection h with h
        subst h
        exact List.mem_cons_of_mem r (ih hrs)

lemma pickBest_maximal {l : List ROI} {w : ROI} (h : pickBest l = some w) :
    ∀ c ∈ l, betterRoi c w = false := by
  induction l generalizing w with
  | nil => simp [pickBest] at h
  | cons r rs ih =>
    intro c hc
    cases hrs : pickBest rs with
    | none =>
      simp only [pickBest, hrs] at h
      injection h with h
      subst h
      have hnil : rs = [] := (pickBest_eq_none_iff rs).mp hrs
      subst hnil
      rcases List.mem_cons.mp hc with rfl | hc
      · exact betterRoi_irrefl c
      · cases hc
    | some v =>
      simp only [pickBest, hrs] at h
      by_cases hb : betterRoi r v = true
      · rw [if_pos hb] at h
        injection h with h
        subst h
        rcases List.mem_cons.mp hc with rfl | hc
        · exact betterRoi_irrefl c
        · rw [Bool.eq_false_iff]
          intro hcw
          have hcv := betterRoi_trans hcw hb
          rw [ih hrs c hc] at hcv
          cases hcv
      · rw [if_neg hb] at h
        injection h with h
        subst h
        rcases List.mem_cons.mp hc with rfl | hc
        · exact Bool.eq_false_iff.mpr hb
        · exact ih hrs c hc

lemma bulkErrorsFrom_nil_iff (store : Store) (i : Nat) (ops : List BulkOp) :
    bulkErrorsFrom store i ops = [] ↔ ∀ op ∈ ops, validateOp store op = none := by
  induction ops generalizing i with
  | nil => simp [bulkErrorsFrom]
  | cons op ops ih =>
    cases hv : validateOp store op with
    | some e => simp [bulkErrorsFrom, hv]
    | none => simp [bulkErrorsFrom, hv, ih]

lemma bulkErrorsFrom_le {store : Store} {ops : List BulkOp} :
    ∀ {i j : Nat} {e : RoiError}, (j, e) ∈ bulkErrorsFrom store i ops → i ≤ j := by
  induction ops with
  | nil =>
    intro i j e h
    simp [bulkErrorsFrom] at h
  | cons op ops ih =>
    intro i j e h
    cases hv : validateOp store op with
    | some e' =>
      simp only [bulkErrorsFrom, hv] at h
      rcases List.mem_cons.mp h with h | h
      · injection h with h1 h2
        omega
      · have := ih h
        omega
    | none =>
      simp only [bulkErrorsFrom, hv] at h
      have := ih h
      omega

lemma bulkErrorsFrom_mem_iff (store : Store) (ops : List BulkOp) :
    ∀ (i j : Nat) (hj : j < ops.length) (e : RoiError),
      ((i + j, e) ∈ bulkErrorsFrom store i ops ↔
        validateOp store (ops.get ⟨j, hj⟩) = some e) := by
  induction ops with
  | nil =>
    intro i j hj e
    simp at hj
  | cons op ops ih =>
    intro i j hj e
    cases j with
    | zero =>
      cases hv : validateOp store op with
      | some e' =>
        simp only [bulkErrorsFrom, hv, List.get]
        constructor
        · intro hm
          rcases List.mem_cons.mp hm with hm | hm
          · injection hm with h1 h2
            subst h2
            rfl
          · exfalso
            have := bulkErrorsFrom_le hm
            omega
        · intro hr
          injection hr with hr
          subst hr
          exact List.mem_cons.mpr (Or.inl (by simp))
      | none =>
        simp only [bulkErrorsFrom, hv, List.get]
        constructor
        · intro hm
          exfalso
          have := bulkErrorsFrom_le hm
          omega
        · intro hr
          cases hr
    | succ k =>
      have hik : i + (k + 1) = (i + 1) + k := by omega
      have hk : k < ops.length := by simpa using hj
      cases hv : validateOp store op with
      | some e' =>
        simp only [bulkErrorsFrom, hv, List.get, hik]
        constructor
        · intro hm
          rcases List.mem_cons.mp hm with hm | hm
          · exfalso
            injection hm with h1 h2
            omega
          · exact (ih (i + 1) k hk e).mp hm
        · intro hr
          exact List.mem_cons.mpr (Or.inr ((ih (i + 1) k hk e).mpr hr))
      | none =>
        simp only [bulkErrorsFrom, hv, List.get, hik]
        exact ih (i + 1) k hk e

/-- C3: the pure function `isActive` satisfies the reference semantics: with
both time fields absent it is constantly true; with both parsed to seconds
since midnight and `start ≤ end` it holds iff `start ≤ now ≤ end` (endpoints
inclusive); with `start > end` (midnight wrap) it holds iff `now ≥ start` or
`now ≤ end`; and on the spec's sample windows `09:00`–`17:00` and
`22:00`–`06:00` it takes exactly the listed values at 08:59, 09:00, 17:00,
17:01, 23:00, 03:00 and 12:00. -/
theorem isActive_reference_semantics :
    (∀ now, isActive "" "" now = true) ∧
    (∀ startS endS s e now, parseTimeOfDay startS = some s →
      parseTimeOfDay endS = some e → s ≤ e →
      (isActive startS endS now = true ↔ (s ≤ now ∧ now ≤ e))) ∧
    (∀ startS endS s e now, parseTimeOfDay startS = some s →
      parseTimeOfDay endS = some e → e < s →
      (isActive startS endS now = true ↔ (s ≤ now ∨ now ≤ e))) ∧
    isActive "09:00" "17:00" 32340 = false ∧
    isActive "09:00" "17:00" 32400 = true ∧
    isActive "09:00" "17:00" 61200 = true ∧
    isActive "09:00" "17:00" 61260 = false ∧
    isActive "22:00" "06:00" 82800 = true ∧
    isActive "22:00" "06:00" 10800 = true ∧
    isActive "22:00" "06:00" 43200 = false := by
  refine ⟨?_, ?_, ?_, by decide, by decide, by decide, by decide, by decide,
    by decide, by decide⟩
  · intro now
    rfl
  · intro startS endS s e now h1 h2 hle
    simp only [isActive, h1, h2, if_pos hle, Bool.and_eq_true, decide_eq_true_iff]
  · intro startS endS s e now h1 h2 hlt
    have hn : ¬ s ≤ e := by omega
    simp only [isActive, h1, h2, if_neg hn, Bool.or_eq_true, decide_eq_true_iff]

/-- Witness for C3: the reference rules applied to the business-hours window
at 10:00 (36000 s), whose endpoints parse to 32400 and 61200. -/
theorem isActive_reference_semantics_witness : isActive "09:00" "17:00" 36000 = true :=
  (isActive_reference_semantics.2.1 "09:00" "17:00" 32400 61200 36000 (by decide)
    (by decide) (by omega)).mpr (by omega)

/-- C9: the empty string is a valid value for either time field individually:
`create` accepts a record whose `start_time` is `""` while `end_time` is
`"17:00"` (and symmetrically), answering `201` with no
`InvalidTimeFormat` error. -/
theorem empty_time_field_valid_individually :
    validTimeField "" = true ∧
    (createRoi [] roiEmptyStart).1.status = 201 ∧
    (createRoi [] roiEmptyStart).1.error = none ∧
    (createRoi [] roiEmptyEnd).1.status = 201 ∧
    (createRoi [] roiEmptyEnd).1.error = none := by
  refine ⟨rfl, by decide, by decide, by decide, by decide⟩

/-- C10: `GET /rois` with no `camera_id` parameter answers `200` with the full
set of stored ROIs across all cameras (as a permutation of the store) and a
`count` equal to the length of the returned list. -/
theorem list_all_cameras_returns_full_store (store : Store) :
    (listRois store none).status = 200 ∧
    (listRois store none).rois.Perm store ∧
    (listRois store none).count = (listRois store none).rois.length := by
  refine ⟨rfl, ?_, rfl⟩
  simpa [listRois] using sortByPriorityDesc_perm store

/-- C7: a disabled ROI is never the conflict-resolution winner and never
appears in the visualization overlay's active set, for every store, camera,
point and timestamp — regardless of its priority or of polygon
containment. -/
theorem disabled_roi_never_selected (store : Store) (cam : String) (p : Point)
    (now : Nat) (r : ROI) (hdis : r.enabled = false) :
    resolveConflict store cam p now ≠ some r ∧ r ∉ overlayActiveSet store cam now := by
  constructor
  · intro h
    have hm : r ∈ candidates store cam p now := pickBest_mem h
    have hflt := (List.mem_filter.mp hm).2
    rw [hdis] at hflt
    simp at hflt
  · intro h
    have hflt := (List.mem_filter.mp h).2
    rw [hdis] at hflt
    simp at hflt

/-- Witness for C7: the disabled maximal-priority fixture is not selected and
not drawn even when it is the only ROI of its camera and contains the point. -/
theorem disabled_roi_never_selected_witness :
    resolveConflict [roiDisabled] "cam1" ⟨50, 50⟩ 0 ≠ some roiDisabled ∧
    roiDisabled ∉ overlayActiveSet [roiDisabled] "cam1" 0 :=
  disabled_roi_never_selected [roiDisabled] "cam1" ⟨50, 50⟩ 0 roiDisabled rfl

/-- C6: `GET /rois?camera_id=...` answers `200` with exactly the records of
that camera (a permutation of the camera filter of the store), sorted by
priority descending; ties keep the stable insertion order (for each priority
the returned records appear exactly in store order); `count` is the length of
the returned list; and repeated calls with no intervening writes return the
same sequence. -/
theorem list_sorted_by_priority_desc_stable (store : Store) (cam : String) :
    (listRois store (some cam)).status = 200 ∧
    (listRois store (some cam)).rois.Perm
      (store.filter (fun r => r.camera_id == cam)) ∧
    (listRois store (some cam)).rois.Pairwise
      (fun a b => b.priority ≤ a.priority) ∧
    (∀ p : Int, (listRois store (some cam)).rois.filter (fun s => s.priority == p) =
      (store.filter (fun r => r.camera_id == cam)).filter
        (fun s => s.priority == p)) ∧
    (listRois store (some cam)).count = (listRois store (some cam)).rois.length ∧
    listRois store (some cam) = listRois store (some cam) := by
  refine ⟨rfl, ?_, ?_, ?_, rfl, rfl⟩
  · exact sortByPriorityDesc_perm (store.filter (fun r => r.camera_id == cam))
  · exact sortByPriorityDesc_pairwise (store.filter (fun r => r.camera_id == cam))
  · intro p
    exact filter_sortByPriorityDesc (store.filter (fun r => r.camera_id == cam)) p

/-- C5: with the record otherwise valid, `create` succeeds with `201` for
every priority in `[1,5]` and fails with `400` and an `InvalidPriority` error
carrying the provided value and the valid range `[1,5]` for every priority
outside it (hence for 0, −1, 6 and 10), leaving the store unchanged; `update`
of an existing id rejects an out-of-range priority the same way. -/
theorem priority_range_validation (store : Store) (r : ROI)
    (hpoly : ¬ r.polygon.length < 3)
    (hstart : validTimeField r.start_time = true)
    (hend : validTimeField r.end_time = true)
    (hcam : (r.camera_id == "") = false) :
    ((1 ≤ r.priority ∧ r.priority ≤ 5) → findRoi store r.id = none →
      ((createRoi store r).1.status = 201 ∧ (createRoi store r).1.error = none)) ∧
    ((r.priority < 1 ∨ 5 < r.priority) →
      ((createRoi store r).1.status = 400 ∧
        (createRoi store r).1.error = some (RoiError.invalidPriority r.priority 1 5) ∧
        (createRoi store r).2 = store)) ∧
    (∀ id r0, findRoi store id = some r0 → (r.priority < 1 ∨ 5 < r.priority) →
      ((updateRoi store id r).1.status = 400 ∧
        (updateRoi store id r).1.error = some (RoiError.invalidPriority r.priority 1 5) ∧
        (updateRoi store id r).2 = store)) := by
  refine ⟨?_, ?_, ?_⟩
  · rintro ⟨h1, h5⟩ hfind
    have hpr : ¬ (r.priority < 1 ∨ 5 < r.priority) := by omega
    have hv : validateRecord r = none := by
      simp only [validateRecord, if_neg hpoly, if_neg hpr, hstart, hend, hcam]
      simp
    simp [createRoi, hv, hfind]
  · intro hbad
    have hv : validateRecord r = some (RoiError.invalidPriority r.priority 1 5) := by
      simp only [validateRecord, if_neg hpoly, if_pos hbad]
    simp [createRoi, hv]
  · intro id r0 hfind hbad
    have hv : validateRecord r = some (RoiError.invalidPriority r.priority 1 5) := by
      simp only [validateRecord, if_neg hpoly, if_pos hbad]
    simp [updateRoi, hfind, hv]

/-- Witness for C5: priority 3 creates with `201`; priority 10 is rejected
with `400` and an `InvalidPriority` error carrying 10 and the range `[1,5]`,
both on create and on update of the stored record. -/
theorem priority_range_validation_witness :
    (createRoi [] (roiWithPriority 3)).1.status = 201 ∧
    (createRoi [] (roiWithPriority 10)).1.status = 400 ∧
    (createRoi [] (roiWithPriority 10)).1.error =
      some (RoiError.invalidPriority 10 1 5) ∧
    (updateRoi [roiWithPriority 3] "roi_p" (roiWithPriority 10)).1.status = 400 ∧
    (updateRoi [roiWithPriority 3] "roi_p" (roiWithPriority 10)).1.error =
      some (RoiError.invalidPriority 10 1 5) := by
  have h3 := priority_range_validation [] (roiWithPriority 3) (by decide) (by decide)
    (by decide) (by decide)
  have h10 := priority_range_validation [] (roiWithPriority 10) (by decide) (by decide)
    (by decide) (by decide)
  have h10u := priority_range_validation [roiWithPriority 3] (roiWithPriority 10)
    (by decide) (by decide) (by decide) (by decide)
  have hcre := h10.2.1 (by decide)
  have hupd := h10u.2.2 "roi_p" (roiWithPriority 3) (by decide) (by decide)
  exact ⟨(h3.1 (by decide) (by decide)).1, hcre.1, hcre.2.1, hupd.1, hupd.2.1⟩

/-- C8: `DELETE /rois/{id}` on a present id answers `200` with the deleted
record's `roi_id` and `camera_id` and removes exactly the first record with
that id, preserving all other records in order; on an absent id it answers
`404` and leaves every stored record unchanged. -/
theorem delete_roi_present_absent (store : Store) (id : String) :
    (findRoi store id = none →
      ((deleteRoi store id).1.status = 404 ∧ (deleteRoi store id).2 = store)) ∧
    (∀ r, findRoi store id = some r →
      ((deleteRoi store id).1.status = 200 ∧
        (deleteRoi store id).1.roi_id = some r.id ∧
        (deleteRoi store id).1.camera_id = some r.camera_id ∧
        ∃ l1 l2, (∀ s ∈ l1, (s.id == id) = false) ∧
          store = l1 ++ r :: l2 ∧ (deleteRoi store id).2 = l1 ++ l2)) := by
  induction store with
  | nil =>
    refine ⟨fun _ => ⟨rfl, rfl⟩, ?_⟩
    intro r h
    simp [findRoi] at h
  | cons r0 rs ih =>
    by_cases h0 : (r0.id == id) = true
    · refine ⟨?_, ?_⟩
      · intro h
        simp only [findRoi] at h
        rw [List.find?_cons_of_pos (p := fun (x : ROI) => x.id == id) _ h0] at h
        cases h
      · intro r h
        simp only [findRoi] at h
        rw [List.find?_cons_of_pos (p := fun (x : ROI) => x.id == id) _ h0] at h
        injection h with h
        subst h
        refine ⟨?_, ?_, ?_, [], rs, ?_, ?_, ?_⟩
        · simp [deleteRoi, h0]
        · simp [deleteRoi, h0]
        · simp [deleteRoi, h0]
        · intro s hs
          cases hs
        · simp
        · simp [deleteRoi, h0]
    · have h0' : (r0.id == id) = false := Bool.eq_false_iff.mpr h0
      refine ⟨?_, ?_⟩
      · intro h
        simp only [findRoi] at h
        rw [List.find?_cons_of_neg (p := fun (x : ROI) => x.id == id) _ h0] at h
        have hrec := ih.1 h
        refine ⟨?_, ?_⟩
        · simpa [deleteRoi, h0'] using hrec.1
        · simp only [deleteRoi, h0']
          simp [hrec.2]
      · intro r h
        simp only [findRoi] at h
        rw [List.find?_cons_of_neg (p := fun (x : ROI) => x.id == id) _ h0] at h
        obtain ⟨hst, hrid, hcid, l1, l2, hl1, heq, hdel⟩ := ih.2 r h
        refine ⟨?_, ?_, ?_, r0 :: l1, l2, ?_, ?_, ?_⟩
        · simpa [deleteRoi, h0'] using hst
        · simpa [deleteRoi, h0'] using hrid
        · simpa [deleteRoi, h0'] using hcid
        · intro s hs
          rcases List.mem_cons.mp hs with rfl | hs
          · exact h0'
          · exact hl1 s hs
        · simp [heq]
        · simp only [deleteRoi, h0']
          simp [hdel]

/-- Witness for C8: deleting present `roi_B` from `[roiA, roiB]` answers `200`
with its ids and leaves `[roiA]`; deleting absent `roi_X` answers `404` and
leaves the store unchanged. -/
theorem delete_roi_present_absent_witness :
    (deleteRoi [roiA, roiB] "roi_B").1.status = 200 ∧
    (deleteRoi [roiA, roiB] "roi_B").1.roi_id = some roiB.id ∧
    (deleteRoi [roiA, roiB] "roi_B").1.camera_id = some roiB.camera_id ∧
    (deleteRoi [roiA, roiB] "roi_B").2 = [roiA] ∧
    (deleteRoi [roiA, roiB] "roi_X").1.status = 404 ∧
    (deleteRoi [roiA, roiB] "roi_X").2 = [roiA, roiB] := by
  have hp := (delete_roi_present_absent [roiA, roiB] "roi_B").2 roiB (by decide)
  have ha := (delete_roi_present_absent [roiA, roiB] "roi_X").1 (by decide)
  exact ⟨hp.1, hp.2.1, hp.2.2.1, by decide, ha.1, ha.2⟩

/-- C4: for every detection event `(camera_id, point, timestamp)` the conflict
resolver considers exactly the ROIs with matching camera, `enabled = true`,
polygon containing the point and window active at the timestamp; it returns
no winner exactly on an empty candidate set; and any returned winner is a
candidate that no candidate beats under the priority-descending /
narrower-currently-active-window / ascending-id order (in particular the
winner carries the highest candidate priority). The selection is a pure
function of the store and the event, hence deterministic. -/
theorem conflict_resolution_deterministic_selection (store : Store) (cam : String)
    (p : Point) (now : Nat) :
    (∀ r, r ∈ candidates store cam p now ↔
      (r ∈ store ∧ r.camera_id = cam ∧ r.enabled = true ∧
        containsPoint r.polygon p = true ∧
        isActive r.start_time r.end_time now = true)) ∧
    (resolveConflict store cam p now = none ↔ candidates store cam p now = []) ∧
    (∀ w, resolveConflict store cam p now = some w →
      (w ∈ candidates store cam p now ∧
        (∀ c ∈ candidates store cam p now,
          betterRoi c w = false ∧ c.priority ≤ w.priority))) := by
  refine ⟨?_, ?_, ?_⟩
  · intro r
    simp [candidates, List.mem_filter, Bool.and_eq_true, beq_iff_eq, and_assoc]
  · exact pickBest_eq_none_iff (candidates store cam p now)
  · intro w hw
    refine ⟨pickBest_mem hw, ?_⟩
    intro c hc
    have hb := pickBest_maximal hw c hc
    exact ⟨hb, priority_le_of_not_better hb⟩

/-- Witness for C4: with the store `[roiB, roiHigh]` and the detection point
(70,70) at 10:00 the winner is `roiHigh`; it is a candidate, the competing
candidate `roiB` does not beat it and has no higher priority. -/
theorem conflict_resolution_deterministic_selection_witness :
    roiHigh ∈ candidates stC4 "cam1" ⟨70, 70⟩ 36000 ∧
    betterRoi roiB roiHigh = false ∧
    roiB.priority ≤ roiHigh.priority := by
  have h := conflict_resolution_deterministic_selection stC4 "cam1" ⟨70, 70⟩ 36000
  have hw := h.2.2 roiHigh (by decide)
  have hc := hw.2 roiB (by decide)
  exact ⟨hw.1, hc.1, hc.2⟩

/-- C2: a bulk batch in which every operation validates answers `200` with the
counts of created, updated and deleted operations plus the total executed, and
the final store is the in-order left fold of the operations over the initial
store — every operation applied, in the given list order. -/
theorem bulk_valid_batch_commits_in_order (store : Store) (ops : List BulkOp)
    (h : ∀ op ∈ ops, validateOp store op = none) :
    (bulkRois store ops).1.status = 200 ∧
    (bulkRois store ops).2 = ops.foldl applyOp store ∧
    (bulkRois store ops).1.created = ops.countP isCreateOp ∧
    (bulkRois store ops).1.updated = ops.countP isUpdateOp ∧
    (bulkRois store ops).1.deleted = ops.countP isDeleteOp ∧
    (bulkRois store ops).1.operations_executed = ops.length := by
  have herr : bulkErrorsFrom store 0 ops = [] := (bulkErrorsFrom_nil_iff store 0 ops).mpr h
  simp [bulkRois, herr]

/-- Witness for C2: the mixed batch (create `roiA`, update `roi_B` to `roiB2`,
delete `roi_C`) over `storeBC` answers `200` with counts 1/1/1 and 3 executed;
afterwards `roiA` exists, `roi_B` reflects its update and `roi_C` is gone. -/
theorem bulk_valid_batch_commits_in_order_witness :
    (bulkRois storeBC opsMixed).1.status = 200 ∧
    (bulkRois storeBC opsMixed).1.created = 1 ∧
    (bulkRois storeBC opsMixed).1.updated = 1 ∧
    (bulkRois storeBC opsMixed).1.deleted = 1 ∧
    (bulkRois storeBC opsMixed).1.operations_executed = 3 ∧
    roiA ∈ (bulkRois storeBC opsMixed).2 ∧
    roiB2 ∈ (bulkRois storeBC opsMixed).2 ∧
    findRoi (bulkRois storeBC opsMixed).2 "roi_C" = none := by
  have h := bulk_valid_batch_commits_in_order storeBC opsMixed (by decide)
  exact ⟨h.1, by decide, by decide, by decide, by decide, by decide, by decide,
    by decide⟩

/-- C1: a bulk batch with at least one validation failure is aborted
atomically: the store is returned unchanged (hence every per-camera ROI count
is unchanged), the status is `400`, and the aggregate carries every individual
failure with its index — an operation at index `j` fails validation iff some
error is recorded at index `j` in `validation_errors`. -/
theorem bulk_invalid_batch_aborts_atomically (store : Store) (ops : List BulkOp)
    (h : ∃ op ∈ ops, (validateOp store op).isSome) :
    (bulkRois store ops).2 = store ∧
    (bulkRois store ops).1.status = 400 ∧
    (∀ cam : String,
      ((bulkRois store ops).2.filter (fun r => r.camera_id == cam)).length =
        (store.filter (fun r => r.camera_id == cam)).length) ∧
    (∀ j (hj : j < ops.length),
      ((validateOp store (ops.get ⟨j, hj⟩)).isSome ↔
        ∃ e, (j, e) ∈ (bulkRois store ops).1.validation_errors)) ∧
    (∀ j (hj : j < ops.length) (e : RoiError),
      ((j, e) ∈ (bulkRois store ops).1.validation_errors ↔
        validateOp store (ops.get ⟨j, hj⟩) = some e)) := by
  have herr : bulkErrorsFrom store 0 ops ≠ [] := by
    intro hnil
    obtain ⟨op, hop, hsome⟩ := h
    have hvnone := (bulkErrorsFrom_nil_iff store 0 ops).mp hnil op hop
    rw [hvnone] at hsome
    simp at hsome
  have hempty : (bulkErrorsFrom store 0 ops).isEmpty = false := by
    cases hb : bulkErrorsFrom store 0 ops with
    | nil => exact absurd hb herr
    | cons x xs => rfl
  have hred : bulkRois store ops =
      (⟨400, 0, 0, 0, 0, (bulkErrorsFrom store 0 ops).length,
        bulkErrorsFrom store 0 ops⟩, store) := by
    simp [bulkRois, hempty]
  refine ⟨by rw [hred], by rw [hred], ?_, ?_, ?_⟩
  · intro cam
    rw [hred]
  · intro j hj
    rw [hred]
    constructor
    · intro hs
      obtain ⟨e, he⟩ := Option.isSome_iff_exists.mp hs
      exact ⟨e, by simpa using (bulkErrorsFrom_mem_iff store ops 0 j hj e).mpr he⟩
    · rintro ⟨e, he⟩
      have hv := (bulkErrorsFrom_mem_iff store ops 0 j hj e).mp (by simpa using he)
      rw [hv]
      rfl
  · intro j hj e
    rw [hred]
    simpa using bulkErrorsFrom_mem_iff store ops 0 j hj e

/-- Witness for C1: the batch `opsInvalid` (a valid create at index 0, a
priority-10 create at index 1) over `[roiB]` leaves the store unchanged,
answers `400` and records the invalid-priority failure at index 1. -/
theorem bulk_invalid_batch_aborts_atomically_witness :
    (bulkRois [roiB] opsInvalid).2 = [roiB] ∧
    (bulkRois [roiB] opsInvalid).1.status = 400 ∧
    (1, RoiError.invalidPriority 10 1 5) ∈
      (bulkRois [roiB] opsInvalid).1.validation_errors := by
  have h := bulk_invalid_batch_aborts_atomically [roiB] opsInvalid (by decide)
  exact ⟨h.1, h.2.1, by decide⟩

end AISec
